import Mathlib

/-!
Verification development for the quick.db repository (QuickDB façade in
`src/index.ts`, file-backed `JSONDriver` backend).

The embedding models JavaScript values as JSON-style trees (`Value`), the
in-memory table store as an ordered association list (`DB`), and the lodash
path helpers `get` / `set` / `unset` used by the façade.  JavaScript numbers
are modelled as integers plus `NaN` (`JSNum`); the claims only exercise
integer arithmetic and the NaN-producing failure of `parseFloat`.

Modelling notes for the lodash helpers (lodash is a third-party dependency,
not part of this repository):
  * paths are lists of string segments, as produced by splitting a key on
    `'.'` — bracket path syntax (`a[0].b`) is not used by the façade;
  * a JavaScript array may carry string-keyed expando properties, modelled by
    the `props` field of `Value.arr`; array holes are approximated by `null`;
  * character indexing into primitive strings and the special `length`
    property of arrays are outside the model (no claim exercises them).
-/

/-- A JavaScript number as used by the façade arithmetic: an integer or NaN.
`NaN` propagates through addition and subtraction. -/
inductive JSNum where
  | nan : JSNum
  | int : Int → JSNum
deriving DecidableEq, Repr

def JSNum.add : JSNum → JSNum → JSNum
  | JSNum.int a, JSNum.int b => JSNum.int (a + b)
  | _, _ => JSNum.nan

def JSNum.sub : JSNum → JSNum → JSNum
  | JSNum.int a, JSNum.int b => JSNum.int (a - b)
  | _, _ => JSNum.nan

/-- Primitive (non-object) JavaScript values: null/undefined (collapsed, as
the code only distinguishes them through `== null` which identifies both),
booleans, numbers and strings. -/
inductive Prim where
  | null : Prim
  | bool : Bool → Prim
  | num : JSNum → Prim
  | str : String → Prim
deriving DecidableEq, Repr

/-- A JavaScript value as stored in a row: a primitive, an array (element
list plus string-keyed expando properties), or a plain object (ordered
property list). -/
inductive Value where
  | prim : Prim → Value
  | arr : List Value → List (String × Value) → Value
  | obj : List (String × Value) → Value

/-- Shorthand for the `null` value. -/
def Value.vnull : Value := Value.prim Prim.null

/-- Shorthand for a boolean value. -/
def Value.vbool (b : Bool) : Value := Value.prim (Prim.bool b)

/-- Shorthand for a number value. -/
def Value.vnum (n : JSNum) : Value := Value.prim (Prim.num n)

/-- Shorthand for an integer number value. -/
def Value.vint (n : Int) : Value := Value.prim (Prim.num (JSNum.int n))

/-- Shorthand for a string value. -/
def Value.vstr (s : String) : Value := Value.prim (Prim.str s)

mutual

/-- Structural equality on values (JavaScript `SameValueZero` restricted to
JSON-style trees, with `includes`-style NaN-equals-NaN behaviour). -/
def Value.beq : Value → Value → Bool
  | Value.prim p, Value.prim q => p == q
  | Value.arr es ps, Value.arr es2 ps2 =>
      Value.beqElems es es2 && Value.beqProps ps ps2
  | Value.obj ps, Value.obj ps2 => Value.beqProps ps ps2
  | _, _ => false

def Value.beqElems : List Value → List Value → Bool
  | [], [] => true
  | a :: as1, b :: bs => Value.beq a b && Value.beqElems as1 bs
  | _, _ => false

def Value.beqProps : List (String × Value) → List (String × Value) → Bool
  | [], [] => true
  | (k, a) :: as1, (k2, b) :: bs =>
      k == k2 && Value.beq a b && Value.beqProps as1 bs
  | _, _ => false

end

mutual

theorem Value.beq_iff : ∀ a b : Value, Value.beq a b = true ↔ a = b
  | Value.prim p, Value.prim q => by simp [Value.beq]
  | Value.prim _, Value.arr _ _ => by simp [Value.beq]
  | Value.prim _, Value.obj _ => by simp [Value.beq]
  | Value.arr _ _, Value.prim _ => by simp [Value.beq]
  | Value.arr es ps, Value.arr es2 ps2 => by
      simp [Value.beq, Bool.and_eq_true, Value.beqElems_iff es es2,
        Value.beqProps_iff ps ps2]
  | Value.arr _ _, Value.obj _ => by simp [Value.beq]
  | Value.obj _, Value.prim _ => by simp [Value.beq]
  | Value.obj _, Value.arr _ _ => by simp [Value.beq]
  | Value.obj ps, Value.obj ps2 => by
      simp [Value.beq, Value.beqProps_iff ps ps2]

theorem Value.beqElems_iff :
    ∀ as1 bs : List Value, Value.beqElems as1 bs = true ↔ as1 = bs
  | [], [] => by simp [Value.beqElems]
  | [], _ :: _ => by simp [Value.beqElems]
  | _ :: _, [] => by simp [Value.beqElems]
  | a :: as1, b :: bs => by
      simp [Value.beqElems, Bool.and_eq_true, Value.beq_iff a b,
        Value.beqElems_iff as1 bs]

theorem Value.beqProps_iff :
    ∀ as1 bs : List (String × Value),
      Value.beqProps as1 bs = true ↔ as1 = bs
  | [], [] => by simp [Value.beqProps]
  | [], _ :: _ => by simp [Value.beqProps]
  | _ :: _, [] => by simp [Value.beqProps]
  | (k, a) :: as1, (k2, b) :: bs => by
      simp [Value.beqProps, Bool.and_eq_true, Value.beq_iff a b,
        Value.beqProps_iff as1 bs, Prod.ext_iff, and_assoc]

end

instance : DecidableEq Value :=
  fun a b => decidable_of_iff (Value.beq a b = true) (Value.beq_iff a b)

instance : BEq Value := ⟨Value.beq⟩

instance : LawfulBEq Value where
  eq_of_beq h := (Value.beq_iff _ _).1 h
  rfl := (Value.beq_iff _ _).2 rfl

/-! ### Ordered association lists

A JavaScript `Map` (the table store) and a plain object's property table are
both ordered string-keyed maps: updating an existing key keeps its position,
a new key is appended at the end, and lookup finds the first (in JS: only)
entry.  All three operations below are shared between the two uses. -/

/-- First-match lookup in an ordered association list. -/
def lookupA {α : Type} : List (String × α) → String → Option α
  | [], _ => none
  | kv :: rest, k => if kv.1 = k then some kv.2 else lookupA rest k

/-- Insert-or-update: an existing key keeps its position, a new key is
appended at the end (JS `Map.set` / property assignment). -/
def putA {α : Type} : List (String × α) → String → α → List (String × α)
  | [], k, v => [(k, v)]
  | kv :: rest, k, v =>
      if kv.1 = k then (k, v) :: rest else kv :: putA rest k v

/-- Remove the first entry with the given key (JS `Map.delete` /
`delete obj[k]`). -/
def eraseA {α : Type} : List (String × α) → String → List (String × α)
  | [], _ => []
  | kv :: rest, k => if kv.1 = k then rest else kv :: eraseA rest k

/-- Apply `f` to the value of the first entry with the given key, if any. -/
def mapA {α : Type} : List (String × α) → String → (α → α) → List (String × α)
  | [], _, _ => []
  | kv :: rest, k, f =>
      if kv.1 = k then (kv.1, f kv.2) :: rest else kv :: mapA rest k f

theorem lookupA_putA_self {α : Type} (l : List (String × α)) (k : String)
    (v : α) : lookupA (putA l k v) k = some v := by
  induction l with
  | nil => simp [putA, lookupA]
  | cons kv rest ih =>
      by_cases h : kv.1 = k
      · simp [putA, h, lookupA]
      · simp [putA, h, lookupA, ih]

theorem lookupA_putA_other {α : Type} (l : List (String × α)) (k k2 : String)
    (v : α) (h : k2 ≠ k) : lookupA (putA l k v) k2 = lookupA l k2 := by
  have h2 : k ≠ k2 := Ne.symm h
  induction l with
  | nil => simp [putA, lookupA, h2]
  | cons kv rest ih =>
      by_cases hk : kv.1 = k
      · simp [putA, hk, lookupA, h2]
      · simp [putA, hk, lookupA, ih]

theorem eraseA_of_lookupA_none {α : Type} (l : List (String × α)) (k : String)
    (h : lookupA l k = none) : eraseA l k = l := by
  induction l with
  | nil => simp [eraseA]
  | cons kv rest ih =>
      by_cases hk : kv.1 = k
      · simp [lookupA, hk] at h
      · simp [lookupA, hk] at h
        simp [eraseA, hk, ih h]

theorem mapA_of_lookupA_none {α : Type} (l : List (String × α)) (k : String)
    (f : α → α) (h : lookupA l k = none) : mapA l k f = l := by
  induction l with
  | nil => simp [mapA]
  | cons kv rest ih =>
      by_cases hk : kv.1 = k
      · simp [lookupA, hk] at h
      · simp [lookupA, hk] at h
        simp [mapA, hk, ih h]

theorem mapA_fixed {α : Type} (l : List (String × α)) (k : String)
    (f : α → α) (v : α) (h : lookupA l k = some v) (hf : f v = v) :
    mapA l k f = l := by
  induction l with
  | nil => simp [lookupA] at h
  | cons kv rest ih =>
      by_cases hk : kv.1 = k
      · simp only [lookupA, if_pos hk, Option.some.injEq] at h
        simp only [mapA, if_pos hk]
        rw [h, hf, ← h]
      · simp only [lookupA, if_neg hk] at h
        simp only [mapA, if_neg hk]
        rw [ih h]

theorem lookupA_isSome_putA {α : Type} (l : List (String × α))
    (k k2 : String) (v : α) (h : (lookupA l k2).isSome) :
    (lookupA (putA l k v) k2).isSome := by
  by_cases hk : k2 = k
  · simp [hk, lookupA_putA_self]
  · simpa [lookupA_putA_other l k k2 v hk] using h

/-! ### The lodash path helpers

`src/index.ts` manipulates nested row values through lodash's `get`, `set`
and `unset`.  Paths are the segment lists obtained by splitting a dotted key
on `'.'`.  A segment addresses an array element when it is a canonical
unsigned-integer numeral below `Number.MAX_SAFE_INTEGER` (lodash `isIndex`),
otherwise it addresses a string-keyed property. -/

/-- Numeric value of a digit string. -/
def natOfDigits (cs : List Char) : Nat :=
  cs.foldl (fun n c => n * 10 + (c.toNat - 48)) 0

/-- lodash `isIndex`: a canonical unsigned-integer numeral strictly below
`Number.MAX_SAFE_INTEGER`. -/
def isIndexStr (s : String) : Bool :=
  (match s.toList with
   | [] => false
   | ['0'] => true
   | c :: cs => decide (c ≠ '0') && (c :: cs).all Char.isDigit) &&
  decide (natOfDigits s.toList < 9007199254740991)

/-- Index denoted by a segment accepted by `isIndexStr`. -/
def idxOf (s : String) : Nat := natOfDigits s.toList

/-- `true` exactly for values on which JS `instanceof Object` (and lodash
`isObject`) holds: arrays and plain objects; primitives and `null` fail. -/
def Value.isObject : Value → Bool
  | Value.arr _ _ => true
  | Value.obj _ => true
  | _ => false

/-- Write an array element, extending the array with `null`s (approximating
JS holes) when the index lies beyond the current length. -/
def setPad (es : List Value) (i : Nat) (v : Value) : List Value :=
  if i < es.length then es.set i v
  else es ++ List.replicate (i - es.length) Value.vnull ++ [v]

theorem setPad_get (es : List Value) (i : Nat) (v : Value) :
    (setPad es i v)[i]? = some v := by
  unfold setPad
  by_cases h : i < es.length
  · simp [h, List.getElem?_set_eq_of_lt v h]
  · simp only [h, if_false]
    have hlen : (es ++ List.replicate (i - es.length) Value.vnull).length = i := by
      simp [List.length_append, List.length_replicate]
      omega
    rw [List.getElem?_append_right (le_of_eq hlen)]
    simp [hlen]

/-- lodash `get` along a path. -/
def lodashGet : Value → List String → Option Value
  | v, [] => some v
  | Value.obj props, k :: p =>
      match lookupA props k with
      | some w => lodashGet w p
      | none => none
  | Value.arr es ps, k :: p =>
      if isIndexStr k then
        match es[idxOf k]? with
        | some w => lodashGet w p
        | none => none
      else
        match lookupA ps k with
        | some w => lodashGet w p
        | none => none
  | Value.prim _, _ :: _ => none

/-- Fresh intermediate container created by lodash `set` when the next path
segment requires one: an array if that segment is an index, else an object. -/
def newChild (nextKey : String) : Value :=
  if isIndexStr nextKey then Value.arr [] [] else Value.obj []

/-- Intermediate container chosen by lodash `set` at one level: the existing
child when it is an object/array, else a fresh container (the existing
non-object child is discarded). -/
def childFor (cur : Option Value) (nextKey : String) : Value :=
  match cur with
  | some w => if w.isObject then w else newChild nextKey
  | none => newChild nextKey

/-- lodash `set` along a path.  On a non-object root (`isObject` false) the
root is returned unchanged, as in lodash `baseSet`; the façade never reaches
that case because it coerces the root to an object first.  An empty path
leaves the value unchanged (the `baseSet` loop body never runs). -/
def lodashSet : Value → List String → Value → Value
  | base, [], _ => base
  | Value.obj props, [k], v => Value.obj (putA props k v)
  | Value.obj props, k :: k2 :: rest, v =>
      Value.obj (putA props k
        (lodashSet (childFor (lookupA props k) k2) (k2 :: rest) v))
  | Value.arr es ps, [k], v =>
      if isIndexStr k then Value.arr (setPad es (idxOf k) v) ps
      else Value.arr es (putA ps k v)
  | Value.arr es ps, k :: k2 :: rest, v =>
      if isIndexStr k then
        Value.arr
          (setPad es (idxOf k)
            (lodashSet (childFor (es[idxOf k]?) k2) (k2 :: rest) v)) ps
      else
        Value.arr es (putA ps k
          (lodashSet (childFor (lookupA ps k) k2) (k2 :: rest) v))
  | base, _ :: _, _ => base

/-- lodash `unset` along a path: removes the addressed leaf if the parent
resolves, otherwise leaves the value unchanged.  Removing an array element
leaves a hole, approximated by `null`. -/
def lodashUnset : Value → List String → Value
  | v, [] => v
  | Value.obj props, [k] => Value.obj (eraseA props k)
  | Value.obj props, k :: k2 :: rest =>
      Value.obj (mapA props k (fun w => lodashUnset w (k2 :: rest)))
  | Value.arr es ps, [k] =>
      if isIndexStr k then
        Value.arr (if idxOf k < es.length then es.set (idxOf k) Value.vnull
                   else es) ps
      else Value.arr es (eraseA ps k)
  | Value.arr es ps, k :: k2 :: rest =>
      if isIndexStr k then
        Value.arr
          (match es[idxOf k]? with
           | some w => es.set (idxOf k) (lodashUnset w (k2 :: rest))
           | none => es) ps
      else
        Value.arr es (mapA ps k (fun w => lodashUnset w (k2 :: rest)))
  | v, _ :: _ => v

/-! ### Dotted keys

`src/index.ts` tests `key.includes(".")` and splits with `key.split(".")`.
The tail segments are re-joined with `"."` and handed to lodash, which
splits them again; since the segments are dot-free the two steps cancel, so
the model passes the tail directly as the lodash path. -/

/-- JS `key.includes(".")`. -/
def hasDot (key : String) : Bool := decide ('.' ∈ key.toList)

/-- JS `String.prototype.split(".")` on the character list. -/
def splitDots : List Char → List (List Char)
  | [] => [[]]
  | c :: cs =>
      if c = '.' then [] :: splitDots cs
      else
        match splitDots cs with
        | h :: t => (c :: h) :: t
        | [] => [[c]]

/-- JS `key.split(".")`. -/
def keyParts (key : String) : List String :=
  (splitDots key.toList).map (fun cs => String.mk cs)

theorem splitDots_ne_nil (cs : List Char) : splitDots cs ≠ [] := by
  induction cs with
  | nil => simp [splitDots]
  | cons c cs ih =>
      by_cases h : c = '.'
      · simp [splitDots, h]
      · simp only [splitDots, if_neg h]
        cases hs : splitDots cs with
        | nil => simp
        | cons a t => simp

theorem splitDots_no_dot (cs : List Char) :
    ∀ p ∈ splitDots cs, '.' ∉ p := by
  induction cs with
  | nil =>
      intro p hp
      simp [splitDots] at hp
      simp [hp]
  | cons c cs ih =>
      intro p hp
      by_cases h : c = '.'
      · simp only [splitDots, if_pos h, List.mem_cons] at hp
        rcases hp with hp | hp
        · simp [hp]
        · exact ih p hp
      · simp only [splitDots, if_neg h] at hp
        cases hs : splitDots cs with
        | nil => exact absurd hs (splitDots_ne_nil cs)
        | cons a t =>
            rw [hs] at hp
            simp only [List.mem_cons] at hp
            rcases hp with hp | hp
            · subst hp
              intro hmem
              rcases List.mem_cons.mp hmem with h1 | h1
              · exact h h1.symm
              · exact ih a (by rw [hs]; exact List.mem_cons_self a t) h1
            · exact ih p (by rw [hs]; exact List.mem_cons.mpr (Or.inr hp))

theorem splitDots_length_ge_two (cs : List Char) (h : '.' ∈ cs) :
    2 ≤ (splitDots cs).length := by
  induction cs with
  | nil => simp at h
  | cons c cs ih =>
      by_cases hc : c = '.'
      · have h1 : splitDots cs ≠ [] := splitDots_ne_nil cs
        have h2 : 1 ≤ (splitDots cs).length := by
          cases hs : splitDots cs with
          | nil => exact absurd hs h1
          | cons a t => simp
        simp only [splitDots, if_pos hc, List.length_cons]
        omega
      · have h' : '.' ∈ cs := by
          rcases List.mem_cons.mp h with h1 | h1
          · exact absurd h1.symm hc
          · exact h1
        have h2 := ih h'
        simp only [splitDots, if_neg hc]
        cases hs : splitDots cs with
        | nil => exact absurd hs (splitDots_ne_nil cs)
        | cons a t =>
            rw [hs] at h2
            simpa using h2

theorem keyParts_ne_nil (key : String) : keyParts key ≠ [] := by
  unfold keyParts
  intro h
  exact splitDots_ne_nil key.toList (List.map_eq_nil.mp h)

theorem keyParts_tail_ne_nil (key : String) (h : hasDot key = true) :
    (keyParts key).tail ≠ [] := by
  have hmem : '.' ∈ key.toList := of_decide_eq_true h
  have hlen := splitDots_length_ge_two key.toList hmem
  unfold keyParts
  intro hcon
  have : (splitDots key.toList).length ≤ 1 := by
    have h2 : ((splitDots key.toList).map (fun cs => String.mk cs)).tail = [] := hcon
    have h3 : ((splitDots key.toList).map (fun cs => String.mk cs)).length ≤ 1 := by
      cases hm : (splitDots key.toList).map (fun cs => String.mk cs) with
      | nil => simp
      | cons a t =>
          rw [hm] at h2
          simp at h2
          simp [hm, h2]
    simpa using h3
  omega

theorem hasDot_head_eq_false (key : String) :
    hasDot ((keyParts key).headD "") = false := by
  unfold keyParts
  cases hs : splitDots key.toList with
  | nil => exact absurd hs (splitDots_ne_nil key.toList)
  | cons a t =>
      have hnd : '.' ∉ a :=
        splitDots_no_dot key.toList a (by rw [hs]; exact List.mem_cons_self a t)
      simp only [List.map_cons, List.headD_cons]
      simpa [hasDot] using hnd

/-! ### JS string coercion and `parseFloat`

`addSubtract` passes a non-number current value to `parseFloat`, which
coerces its argument to a string first.  `parseFloatJS` models the
(optionally signed) decimal-integer fragment of `parseFloat`: fractional and
exponent forms are outside the model (the claims only parse non-numeric
strings), and every non-numeric prefix yields `NaN` — `parseFloat` never
throws. -/

mutual

/-- JS `String(v)` as used by `parseFloat` coercion. -/
def jsToString : Value → String
  | Value.prim Prim.null => "null"
  | Value.prim (Prim.bool b) => if b then "true" else "false"
  | Value.prim (Prim.num JSNum.nan) => "NaN"
  | Value.prim (Prim.num (JSNum.int n)) => toString n
  | Value.prim (Prim.str s) => s
  | Value.arr es _ => jsToStringElems es
  | Value.obj _ => "[object Object]"

/-- Array elements joined with `","` (JS `Array.prototype.toString`); a
`null` element stringifies to the empty string. -/
def jsToStringElems : List Value → String
  | [] => ""
  | [Value.prim Prim.null] => ""
  | [v] => jsToString v
  | Value.prim Prim.null :: rest => "," ++ jsToStringElems rest
  | v :: rest => jsToString v ++ "," ++ jsToStringElems rest

end

/-- The decimal-integer fragment of JS `parseFloat`: skip leading
whitespace, read an optional sign and a digit run; no digits means `NaN`. -/
def parseFloatJS (s : String) : JSNum :=
  let cs := s.toList.dropWhile (fun c => c.isWhitespace)
  let signed : Bool × List Char :=
    match cs with
    | '-' :: rest => (true, rest)
    | '+' :: rest => (false, rest)
    | _ => (false, cs)
  let digits := signed.2.takeWhile Char.isDigit
  if digits.isEmpty then JSNum.nan
  else
    let n : Int := Int.ofNat (natOfDigits digits)
    JSNum.int (if signed.1 then -n else n)

/-- JS `x == null` on an optional stored value: absent (`undefined`) or
`null`. -/
def isNullish : Option Value → Bool
  | none => true
  | some (Value.prim Prim.null) => true
  | some _ => false

/-- JS `x ?? d` on an optional stored value. -/
def nullishD (o : Option Value) (d : Value) : Value :=
  match o with
  | none => d
  | some (Value.prim Prim.null) => d
  | some v => v

/-! ### Path lemmas -/

theorem childFor_isObject (cur : Option Value) (nk : String) :
    (childFor cur nk).isObject = true := by
  cases cur with
  | none =>
      by_cases h : isIndexStr nk <;>
        simp [childFor, newChild, h, Value.isObject]
  | some w =>
      by_cases hw : w.isObject = true
      · simp [childFor, hw]
      · cases w with
        | prim q =>
            by_cases h : isIndexStr nk <;>
              simp [childFor, newChild, h, Value.isObject]
        | arr es ps => simp [Value.isObject] at hw
        | obj ps => simp [Value.isObject] at hw

/-- Writing a non-empty path into an object or array root and reading the
same path back yields the written value. -/
theorem lodashGet_lodashSet (p : List String) : ∀ (base v : Value),
    base.isObject = true → p ≠ [] →
    lodashGet (lodashSet base p v) p = some v := by
  induction p with
  | nil => intro _ _ _ hp; exact absurd rfl hp
  | cons k rest ih =>
      intro base v hb _
      cases rest with
      | nil =>
          cases base with
          | prim q => simp [Value.isObject] at hb
          | obj props => simp [lodashSet, lodashGet, lookupA_putA_self]
          | arr es ps =>
              by_cases hk : isIndexStr k
              · simp [lodashSet, hk, lodashGet, setPad_get]
              · simp [lodashSet, hk, lodashGet, lookupA_putA_self]
      | cons k2 rest2 =>
          cases base with
          | prim q => simp [Value.isObject] at hb
          | obj props =>
              have hchild := childFor_isObject (lookupA props k) k2
              simp only [lodashSet, lodashGet, lookupA_putA_self]
              exact ih _ v hchild (by simp)
          | arr es ps =>
              by_cases hk : isIndexStr k
              · have hchild := childFor_isObject (es[idxOf k]?) k2
                simp only [lodashSet, if_pos hk, lodashGet, setPad_get]
                exact ih _ v hchild (by simp)
              · have hchild := childFor_isObject (lookupA ps k) k2
                simp only [lodashSet, if_neg hk, lodashGet, lookupA_putA_self]
                exact ih _ v hchild (by simp)

theorem list_set_self {α : Type} :
    ∀ (l : List α) (i : Nat) (a : α), l[i]? = some a → l.set i a = l
  | [], i, a, h => by simp at h
  | b :: l, 0, a, h => by
      simp at h
      simp [List.set, h]
  | b :: l, i + 1, a, h => by
      simp at h
      simp [List.set, list_set_self l i a h]

/-- `unset` on a path whose leaf does not resolve is a no-op on the value. -/
theorem lodashUnset_of_get_none (p : List String) : ∀ (w : Value),
    lodashGet w p = none → lodashUnset w p = w := by
  induction p with
  | nil => intro w h; simp [lodashGet] at h
  | cons k rest ih =>
      intro w h
      cases rest with
      | nil =>
          cases w with
          | prim q => simp [lodashUnset]
          | obj props =>
              cases hl : lookupA props k with
              | some u => simp [lodashGet, hl] at h
              | none => simp [lodashUnset, eraseA_of_lookupA_none _ _ hl]
          | arr es ps =>
              by_cases hk : isIndexStr k
              · cases hi : es[idxOf k]? with
                | some u => simp [lodashGet, hk, hi] at h
                | none =>
                    have hlen : es.length ≤ idxOf k := by
                      simpa using List.getElem?_eq_none_iff.mp hi
                    simp [lodashUnset, hk, Nat.not_lt.mpr hlen]
              · cases hl : lookupA ps k with
                | some u => simp [lodashGet, hk, hl] at h
                | none => simp [lodashUnset, hk, eraseA_of_lookupA_none _ _ hl]
      | cons k2 rest2 =>
          cases w with
          | prim q => simp [lodashUnset]
          | obj props =>
              cases hl : lookupA props k with
              | some u =>
                  have hu : lodashGet u (k2 :: rest2) = none := by
                    simpa [lodashGet, hl] using h
                  simp [lodashUnset,
                    mapA_fixed props k (fun w => lodashUnset w (k2 :: rest2)) u hl
                      (ih u hu)]
              | none => simp [lodashUnset, mapA_of_lookupA_none _ _ _ hl]
          | arr es ps =>
              by_cases hk : isIndexStr k
              · cases hi : es[idxOf k]? with
                | some u =>
                    have hu : lodashGet u (k2 :: rest2) = none := by
                      simpa [lodashGet, hk, hi] using h
                    simp [lodashUnset, hk, hi, ih u hu, list_set_self es _ u hi]
                | none => simp [lodashUnset, hk, hi]
              · cases hl : lookupA ps k with
                | some u =>
                    have hu : lodashGet u (k2 :: rest2) = none := by
                      simpa [lodashGet, hk, hl] using h
                    simp [lodashUnset, hk,
                      mapA_fixed ps k (fun w => lodashUnset w (k2 :: rest2)) u hl
                        (ih u hu)]
                | none => simp [lodashUnset, hk, mapA_of_lookupA_none _ _ _ hl]

/-- `unset` never turns a non-null value into `null`. -/
theorem lodashUnset_ne_vnull (v : Value) (p : List String)
    (h : v ≠ Value.vnull) : lodashUnset v p ≠ Value.vnull := by
  cases p with
  | nil => simpa [lodashUnset] using h
  | cons k rest =>
      cases rest with
      | nil =>
          cases v with
          | prim q => simpa [lodashUnset] using h
          | obj props => simp [lodashUnset, Value.vnull]
          | arr es ps =>
              by_cases hk : isIndexStr k <;> simp [lodashUnset, hk, Value.vnull]
      | cons k2 rest2 =>
          cases v with
          | prim q => simpa [lodashUnset] using h
          | obj props => simp [lodashUnset, Value.vnull]
          | arr es ps =>
              by_cases hk : isIndexStr k <;> simp [lodashUnset, hk, Value.vnull]

/-! ### The table store and the file-backed driver

The `MemoryDriver` class is not among the provided sources (only its
subclass `JSONDriver` is), so the in-memory Table Store is modelled from the
spec, §4.1 and §3.  The `snapshots` field counts Snapshot writes performed
by the `JSONDriver` overrides (each override runs the in-memory mutation and
then one `snapshot()`), standing in for the on-disk file. -/

/-- The backend state: the in-memory Store (table name → ordered rows) and
the number of Snapshot writes performed so far. -/
structure DB where
  tables : List (String × List (String × Value))
  snapshots : Nat
deriving DecidableEq

/-- The freshly constructed, empty backend. -/
def DB.empty : DB := ⟨[], 0⟩

/-- Rows of a table (empty for an unregistered table). -/
def tableRows (db : DB) (t : String) : List (String × Value) :=
  (lookupA db.tables t).getD []

namespace MemoryDriver

/-- Modelled from the spec: `MemoryDriver.getOrCreateTable` is not in the
provided sources.  §4.1: "returns existing table or creates and registers an
empty one"; §3: tables are "created lazily on first reference". -/
def getOrCreateTable (db : DB) (t : String) : DB :=
  if (lookupA db.tables t).isSome then db
  else { db with tables := db.tables ++ [(t, [])] }

/-- Modelled from the spec: `MemoryDriver.getRowByKey` is not in the
provided sources.  §4.1 `getRow`: "(value | absent, existed: bool)". -/
def getRowByKey (db : DB) (t k : String) : Option Value × Bool :=
  (lookupA (tableRows db t) k, (lookupA (tableRows db t) k).isSome)

/-- Modelled from the spec: `MemoryDriver.setRowByKey` is not in the
provided sources.  §4.1 `setRow`: "inserts or overwrites; returns the stored
value unchanged (echo contract)"; the `update` hint is accepted for contract
compatibility and ignored (§9, open question). -/
def setRowByKey (db : DB) (t k : String) (v : Value) (update : Bool) :
    Value × DB :=
  let db1 := getOrCreateTable db t
  let _ := update
  (v, { db1 with tables := putA db1.tables t (putA (tableRows db1 t) k v) })

/-- Modelled from the spec: `MemoryDriver.deleteRowByKey` is not in the
provided sources.  §4.1 `deleteRow`: "count removed (0 or 1)". -/
def deleteRowByKey (db : DB) (t k : String) : Nat × DB :=
  let db1 := getOrCreateTable db t
  let rows := tableRows db1 t
  ((if (lookupA rows k).isSome then 1 else 0),
    { db1 with tables := putA db1.tables t (eraseA rows k) })

/-- Modelled from the spec: `MemoryDriver.deleteAllRows` is not in the
provided sources.  §4.1: "clears only that table's entries, preserves the
table's registration". -/
def deleteAllRows (db : DB) (t : String) : Nat × DB :=
  let db1 := getOrCreateTable db t
  ((tableRows db1 t).length,
    { db1 with tables := putA db1.tables t [] })

/-- Modelled from the spec: `MemoryDriver.getAllRows` is not in the provided
sources.  §4.1 `listRows`: "sequence of Row, stable order = table's internal
order". -/
def getAllRows (db : DB) (t : String) : List (String × Value) :=
  tableRows db t

end MemoryDriver

namespace JSONDriver

/-- One `snapshot()` call: serialize the full store and write it atomically.
Modelled as bumping the write counter; the snapshot content is `exportDB`. -/
def snapshotWrite (db : DB) : DB := { db with snapshots := db.snapshots + 1 }

/-- `JSONDriver.setRowByKey`: the in-memory mutation, then one snapshot. -/
def setRowByKey (db : DB) (t k : String) (v : Value) (update : Bool) :
    Value × DB :=
  let r := MemoryDriver.setRowByKey db t k v update
  (r.1, snapshotWrite r.2)

/-- `JSONDriver.deleteRowByKey`: the in-memory mutation, then one snapshot. -/
def deleteRowByKey (db : DB) (t k : String) : Nat × DB :=
  let r := MemoryDriver.deleteRowByKey db t k
  (r.1, snapshotWrite r.2)

/-- `JSONDriver.deleteAllRows`: the in-memory mutation, then one snapshot. -/
def deleteAllRows (db : DB) (t : String) : Nat × DB :=
  let r := MemoryDriver.deleteAllRows db t
  (r.1, snapshotWrite r.2)

/-- Reads are inherited unchanged from the memory driver. -/
def getRowByKey (db : DB) (t k : String) : Option Value × Bool :=
  MemoryDriver.getRowByKey db t k

/-- `JSONDriver.export`: every registered table with all of its rows, in
registration order. -/
def exportDB (db : DB) : List (String × List (String × Value)) :=
  db.tables.map (fun kv => (kv.1, MemoryDriver.getAllRows db kv.1))

/-- Outcome of reading and `JSON.parse`-ing the snapshot file at
construction.  `JSON.parse` itself is a JS builtin, so the model is
parametrized by its outcome: the file is absent, present but unparseable,
or parses to a table/rows listing. -/
inductive SnapshotFile where
  | absent : SnapshotFile
  | malformed : SnapshotFile
  | wellFormed : List (String × List (String × Value)) → SnapshotFile

/-- Load one table of parsed data: `getOrCreateTable` then `store.set` for
each row (direct `Map` writes, no snapshot). -/
def loadTable (db : DB) (t : String) (rows : List (String × Value)) : DB :=
  rows.foldl
    (fun d r =>
      { d with tables := putA d.tables t (putA (tableRows d t) r.1 r.2) })
    (MemoryDriver.getOrCreateTable db t)

/-- `JSONDriver.loadContentSync`: if the file exists, `JSON.parse` it — a
parse failure throws `"Database malformed"` (fatal for the constructor); if
it does not exist, write `"\x7b\x7d"` (an empty snapshot) synchronously.
Returns the loaded state and the file content written, if any. -/
def loadContentSync (db : DB) (file : SnapshotFile) :
    Except String (DB × Option String) :=
  match file with
  | SnapshotFile.absent => Except.ok (db, some "\x7b\x7d")
  | SnapshotFile.malformed => Except.error "Database malformed"
  | SnapshotFile.wellFormed data =>
      Except.ok (data.foldl (fun d td => loadTable d td.1 td.2) db, none)

end JSONDriver

/-! ### The QuickDB façade (`src/index.ts`)

Each method of the `QuickDB` class is embedded as a function over the
backend state `DB` and the bound table name.  A thrown `Error` becomes
`Except.error` with the same message; because a JS exception propagates
before any driver mutation runs, an `error` result carries no new state —
the store is untouched.  The trivially-true `typeof key != "string"` guards
are omitted (the key argument is a string by type). -/

namespace QuickDB

/-- `QuickDB.get` (`src/index.ts` lines 73–88): a dotted key reads the root
row and resolves the remaining path with lodash `get`; a flat key reads the
row directly.  `none` models JS `null`/`undefined` results. -/
def get (db : DB) (tbl key : String) : Option Value :=
  if hasDot key then
    let parts := keyParts key
    match (JSONDriver.getRowByKey db tbl (parts.headD "")).1 with
    | some w => lodashGet w parts.tail
    | none => none
  else (JSONDriver.getRowByKey db tbl key).1

/-- `QuickDB.set` (`src/index.ts` lines 90–124): rejects a nullish value;
for a dotted key reads the root row, coerces a non-`instanceof Object`
current value to `\x7b\x7d`, writes the remaining path with lodash `set` and
stores the result back; a flat key stores directly.  The echoed value is the
driver echo: the whole root value for dotted keys. -/
def set (db : DB) (tbl key : String) (value : Value) :
    Except String (Value × DB) :=
  if value = Value.vnull then Except.error "Missing second argument (value)"
  else if hasDot key then
    let parts := keyParts key
    let root := parts.headD ""
    let rowRes := JSONDriver.getRowByKey db tbl root
    let obj := match rowRes.1 with
      | some w => if w.isObject then w else Value.obj []
      | none => Value.obj []
    let valueSet := lodashSet obj parts.tail value
    let r := JSONDriver.setRowByKey db tbl root valueSet rowRes.2
    Except.ok r
  else
    let exist := (JSONDriver.getRowByKey db tbl key).2
    Except.ok (JSONDriver.setRowByKey db tbl key value exist)

/-- `QuickDB.has` (`src/index.ts` lines 126–128). -/
def has (db : DB) (tbl key : String) : Bool := !(isNullish (get db tbl key))

/-- `QuickDB.delete` (`src/index.ts` lines 130–142): for a dotted key, read
the root row's value (`?? \x7b\x7d`), `unset` the remaining path, and `set`
the result back — the JS function then resolves with `set`'s echo (the row
structure), while for a flat key it resolves with the driver's removal
count.  Both outcomes are JS values, modelled in `Value`. -/
def delete (db : DB) (tbl key : String) : Except String (Value × DB) :=
  if hasDot key then
    let parts := keyParts key
    let root := parts.headD ""
    let obj := nullishD (get db tbl root) (Value.obj [])
    let obj2 := lodashUnset obj parts.tail
    set db tbl root obj2
  else
    let r := JSONDriver.deleteRowByKey db tbl key
    Except.ok (Value.vint (Int.ofNat r.1), r.2)

/-- `QuickDB.deleteAll` (`src/index.ts` lines 144–146). -/
def deleteAll (db : DB) (tbl : String) : Nat × DB :=
  JSONDriver.deleteAllRows db tbl

/-- `QuickDB.addSubtract` (`src/index.ts` lines 33–58): a nullish current
value counts as 0; a non-number current value goes through `parseFloat`
(after JS string coercion) — `parseFloat` never throws, so the surrounding
`try/catch` cannot fire and an unparseable value becomes `NaN`, which is
then written back.  The result is `set`'s echo. -/
def addSubtract (db : DB) (tbl key : String) (value : JSNum) (sub : Bool) :
    Except String (Value × DB) :=
  let cur := get db tbl key
  let currentNumber : JSNum :=
    match cur with
    | none => JSNum.int 0
    | some (Value.prim Prim.null) => JSNum.int 0
    | some (Value.prim (Prim.num n)) => n
    | some w => parseFloatJS (jsToString w)
  let res := if sub then currentNumber.sub value else currentNumber.add value
  set db tbl key (Value.vnum res)

/-- `QuickDB.add` (`src/index.ts` lines 148–150). -/
def add (db : DB) (tbl key : String) (value : JSNum) :
    Except String (Value × DB) :=
  addSubtract db tbl key value false

/-- `QuickDB.sub` (`src/index.ts` lines 152–154). -/
def sub (db : DB) (tbl key : String) (value : JSNum) :
    Except String (Value × DB) :=
  addSubtract db tbl key value true

/-- `QuickDB.getArray` (`src/index.ts` lines 60–67): the current value with
nullish replaced by `[]`; throws when it is not an array. -/
def getArray (db : DB) (tbl key : String) :
    Except String (List Value × List (String × Value)) :=
  match nullishD (get db tbl key) (Value.arr [] []) with
  | Value.arr es ps => Except.ok (es, ps)
  | _ => Except.error s!"Current value with key: ({key}) is not an array"

/-- `QuickDB.push` (`src/index.ts` lines 156–167): an array argument is
concatenated (`concat` builds a fresh array, dropping expando properties),
any other argument is pushed in place; the result is stored with `set`. -/
def push (db : DB) (tbl key : String) (value : Value) :
    Except String (Value × DB) :=
  if value = Value.vnull then Except.error "Missing second argument (value)"
  else
    match getArray db tbl key with
    | Except.error e => Except.error e
    | Except.ok (es, ps) =>
        let newArr := match value with
          | Value.arr ves _ => Value.arr (es ++ ves) []
          | v => Value.arr (es ++ [v]) ps
        set db tbl key newArr

/-- The second argument of `QuickDB.pull`: a single value, an array of
values, or a predicate. -/
inductive PullArg where
  | val : Value → PullArg
  | vals : List Value → PullArg
  | fn : (Value → Bool) → PullArg

/-- JS `value == null` on the `pull` argument: only a plain `null` value
is nullish (arrays and functions are not). -/
def isNullArg : PullArg → Bool
  | PullArg.val (Value.prim Prim.null) => true
  | _ => false

/-- `QuickDB.pull` (`src/index.ts` lines 169–189): a non-array, non-function
argument is wrapped in a singleton array; the current array is filtered to
the elements the argument does **not** select (`!value.includes(x)` for a
value set, `!value(x)` for a predicate — elements satisfying the predicate
are removed), and the filtered array (a fresh one: `filter` drops expando
properties) is stored with `set`. -/
def pull (db : DB) (tbl key : String) (arg : PullArg) :
    Except String (Value × DB) :=
  if isNullArg arg then Except.error "Missing second argument (value)"
  else
    match getArray db tbl key with
    | Except.error e => Except.error e
    | Except.ok (es, _ps) =>
        let keep : Value → Bool := fun x =>
          match arg with
          | PullArg.val v => !([v].contains x)
          | PullArg.vals vs => !(vs.contains x)
          | PullArg.fn f => !(f x)
        set db tbl key (Value.arr (es.filter keep) [])

/-- `QuickDB.all` (`src/index.ts` lines 69–71). -/
def all (db : DB) (tbl : String) : List (String × Value) :=
  MemoryDriver.getAllRows db tbl

end QuickDB

/-! ### Store and façade lemmas -/

/-- The value stored at row `k` of table `t` (absent rows are `none`). -/
def rowValue (db : DB) (t k : String) : Option Value :=
  lookupA (tableRows db t) k

theorem getRowByKey_fst (db : DB) (t k : String) :
    (JSONDriver.getRowByKey db t k).1 = rowValue db t k := rfl

theorem lookupA_append_right {α : Type} (l : List (String × α)) (k : String)
    (x : α) (h : lookupA l k = none) : lookupA (l ++ [(k, x)]) k = some x := by
  induction l with
  | nil => simp [lookupA]
  | cons kv rest ih =>
      by_cases hk : kv.1 = k
      · simp [lookupA, hk] at h
      · simp [lookupA, hk] at h ⊢
        exact ih h

theorem tableRows_getOrCreateTable (db : DB) (t : String) :
    tableRows (MemoryDriver.getOrCreateTable db t) t = tableRows db t := by
  unfold MemoryDriver.getOrCreateTable
  cases hl : lookupA db.tables t with
  | some rows => simp [hl]
  | none =>
      simp only [hl, Option.isSome_none, Bool.false_eq_true, if_false]
      simp [tableRows, lookupA_append_right db.tables t [] hl, hl]

theorem snapshots_getOrCreateTable (db : DB) (t : String) :
    (MemoryDriver.getOrCreateTable db t).snapshots = db.snapshots := by
  unfold MemoryDriver.getOrCreateTable
  cases hl : (lookupA db.tables t).isSome <;> simp

theorem rowValue_snapshotWrite (db : DB) (t k : String) :
    rowValue (JSONDriver.snapshotWrite db) t k = rowValue db t k := rfl

theorem snapshots_snapshotWrite (db : DB) :
    (JSONDriver.snapshotWrite db).snapshots = db.snapshots + 1 := rfl

theorem tables_snapshotWrite (db : DB) :
    (JSONDriver.snapshotWrite db).tables = db.tables := rfl

theorem tableRows_memSet (db : DB) (t k : String) (v : Value) (u : Bool) :
    tableRows (MemoryDriver.setRowByKey db t k v u).2 t =
      putA (tableRows db t) k v := by
  have h : tableRows (MemoryDriver.setRowByKey db t k v u).2 t =
      putA (tableRows (MemoryDriver.getOrCreateTable db t) t) k v := by
    unfold MemoryDriver.setRowByKey tableRows
    simp only [lookupA_putA_self, Option.getD_some]
  rw [h, tableRows_getOrCreateTable]

theorem rowValue_memSet_self (db : DB) (t k : String) (v : Value) (u : Bool) :
    rowValue (MemoryDriver.setRowByKey db t k v u).2 t k = some v := by
  unfold rowValue
  rw [tableRows_memSet, lookupA_putA_self]

theorem snapshots_memSet (db : DB) (t k : String) (v : Value) (u : Bool) :
    (MemoryDriver.setRowByKey db t k v u).2.snapshots = db.snapshots := by
  unfold MemoryDriver.setRowByKey
  simp [snapshots_getOrCreateTable]

theorem tables_isSome_memSet (db : DB) (t k : String) (v : Value) (u : Bool) :
    (lookupA (MemoryDriver.setRowByKey db t k v u).2.tables t).isSome := by
  unfold MemoryDriver.setRowByKey
  simp [lookupA_putA_self]

theorem tableRows_setRowByKey (db : DB) (t k : String) (v : Value)
    (u : Bool) :
    tableRows (JSONDriver.setRowByKey db t k v u).2 t =
      putA (tableRows db t) k v := by
  unfold JSONDriver.setRowByKey
  show tableRows (JSONDriver.snapshotWrite (MemoryDriver.setRowByKey db t k v u).2) t = _
  unfold JSONDriver.snapshotWrite tableRows
  exact tableRows_memSet db t k v u

theorem rowValue_setRowByKey_self (db : DB) (t k : String) (v : Value)
    (u : Bool) :
    rowValue (JSONDriver.setRowByKey db t k v u).2 t k = some v := by
  unfold rowValue
  rw [tableRows_setRowByKey, lookupA_putA_self]

theorem snapshots_setRowByKey (db : DB) (t k : String) (v : Value)
    (u : Bool) :
    (JSONDriver.setRowByKey db t k v u).2.snapshots = db.snapshots + 1 := by
  unfold JSONDriver.setRowByKey
  show (JSONDriver.snapshotWrite (MemoryDriver.setRowByKey db t k v u).2).snapshots = _
  rw [snapshots_snapshotWrite, snapshots_memSet]

/-- The root value that dotted `set` hands to lodash is always an object or
array (`result instanceof Object` is re-established by coercion). -/
theorem set_coerced_isObject (cur : Option Value) :
    (match cur with
     | some w => if w.isObject then w else Value.obj []
     | none => Value.obj []).isObject = true := by
  cases cur with
  | none => simp [Value.isObject]
  | some w =>
      cases w with
      | prim q => simp [Value.isObject]
      | arr es ps => simp [Value.isObject]
      | obj ps => simp [Value.isObject]

/-- `set` succeeds on a non-null value, bumps the snapshot counter by one,
registers the table, and a subsequent `get` of the same key reads the
written value back. -/
theorem set_spec (db : DB) (tbl key : String) (v : Value)
    (hv : v ≠ Value.vnull) :
    ∃ r db2, QuickDB.set db tbl key v = Except.ok (r, db2) ∧
      QuickDB.get db2 tbl key = some v ∧
      db2.snapshots = db.snapshots + 1 ∧
      (lookupA db2.tables tbl).isSome ∧
      (hasDot key = false → r = v) := by
  by_cases hd : hasDot key
  · simp only [QuickDB.set, hv, hd, if_true, if_false]
    refine ⟨_, _, rfl, ?_, ?_, ?_, ?_⟩
    · have htail := keyParts_tail_ne_nil key hd
      have hobj := set_coerced_isObject (rowValue db tbl ((keyParts key).headD ""))
      simp only [QuickDB.get, hd, if_true, getRowByKey_fst,
        rowValue_snapshotWrite, rowValue_memSet_self]
      exact lodashGet_lodashSet (keyParts key).tail _ v hobj htail
    · simp only [snapshots_snapshotWrite, snapshots_memSet]
    · simp only [tables_snapshotWrite]
      exact tables_isSome_memSet db tbl _ _ _
    · intro hfalse
      exact absurd hfalse (by simp)
  · simp only [QuickDB.set, hv, hd, if_false]
    refine ⟨_, _, rfl, ?_, ?_, ?_, ?_⟩
    · simp only [QuickDB.get, hd, Bool.false_eq_true, if_false,
        getRowByKey_fst, rowValue_snapshotWrite, rowValue_memSet_self]
    · simp only [snapshots_snapshotWrite, snapshots_memSet]
    · simp only [tables_snapshotWrite]
      exact tables_isSome_memSet db tbl _ _ _
    · intro _
      rfl

theorem get_flat (db : DB) (tbl key : String) (h : hasDot key = false) :
    QuickDB.get db tbl key = rowValue db tbl key := by
  simp only [QuickDB.get, h, Bool.false_eq_true, if_false, getRowByKey_fst]

theorem nullishD_some_of_ne (w d : Value) (h : w ≠ Value.vnull) :
    nullishD (some w) d = w := by
  cases w with
  | prim q =>
      cases q with
      | null => exact absurd rfl h
      | bool b => rfl
      | num n => rfl
      | str s => rfl
  | arr es ps => rfl
  | obj ps => rfl

theorem nullishD_obj_ne_vnull (o : Option Value) (l : List (String × Value)) :
    nullishD o (Value.obj l) ≠ Value.vnull := by
  cases o with
  | none => simp [nullishD, Value.vnull]
  | some w =>
      cases w with
      | prim q =>
          cases q with
          | null => simp [nullishD, Value.vnull]
          | bool b => simp [nullishD, Value.vnull]
          | num n => simp [nullishD, Value.vnull]
          | str s => simp [nullishD, Value.vnull]
      | arr es ps => simp [nullishD, Value.vnull]
      | obj ps => simp [nullishD, Value.vnull]

/-- A flat `set` echoes the written value itself. -/
theorem set_flat_eq (db : DB) (tbl key : String) (v : Value)
    (hv : v ≠ Value.vnull) (hd : hasDot key = false) :
    QuickDB.set db tbl key v =
      Except.ok (v,
        (JSONDriver.setRowByKey db tbl key v
          (JSONDriver.getRowByKey db tbl key).2).2) := by
  simp only [QuickDB.set, hv, hd, Bool.false_eq_true, if_false]
  rfl

/-- A dotted `delete` reads the root row, unsets the tail path, writes the
result back through `set`, resolves with that structure, and performs
exactly one snapshot write. -/
theorem delete_dotted_spec (db : DB) (tbl key : String)
    (hd : hasDot key = true) :
    ∃ db2,
      QuickDB.delete db tbl key =
        Except.ok
          (lodashUnset
            (nullishD (QuickDB.get db tbl ((keyParts key).headD ""))
              (Value.obj []))
            (keyParts key).tail, db2) ∧
      rowValue db2 tbl ((keyParts key).headD "") =
        some (lodashUnset
          (nullishD (QuickDB.get db tbl ((keyParts key).headD ""))
            (Value.obj []))
          (keyParts key).tail) ∧
      db2.snapshots = db.snapshots + 1 := by
  have hroot : hasDot ((keyParts key).headD "") = false :=
    hasDot_head_eq_false key
  have hobj2 : lodashUnset
      (nullishD (QuickDB.get db tbl ((keyParts key).headD "")) (Value.obj []))
      (keyParts key).tail ≠ Value.vnull :=
    lodashUnset_ne_vnull _ _ (nullishD_obj_ne_vnull _ _)
  refine ⟨(JSONDriver.setRowByKey db tbl ((keyParts key).headD "")
      (lodashUnset
        (nullishD (QuickDB.get db tbl ((keyParts key).headD ""))
          (Value.obj []))
        (keyParts key).tail)
      (JSONDriver.getRowByKey db tbl ((keyParts key).headD "")).2).2,
    ?_, rowValue_setRowByKey_self _ _ _ _ _, snapshots_setRowByKey _ _ _ _ _⟩
  simp only [QuickDB.delete, hd, if_true]
  rw [set_flat_eq db tbl ((keyParts key).headD "") _ hobj2 hroot]

/-! ### Claims -/

/-- C1: for every table, key (flat or dotted) and non-null value `v`,
`set(k, v)` followed by `get(k)` returns `v`; concretely, on an empty store
`set("a.b", 5)` makes `get("a.b")` return `5` and `get("a")` return
`\x7bb: 5\x7d`, even though row `"a"` did not previously exist. -/
theorem claim1_set_get_roundtrip (db : DB) (tbl key : String) (v : Value)
    (hv : v ≠ Value.vnull) :
    (∃ r db2, QuickDB.set db tbl key v = Except.ok (r, db2) ∧
      QuickDB.get db2 tbl key = some v) ∧
    (∃ db2, QuickDB.set DB.empty "json" "a.b" (Value.vint 5) =
        Except.ok (Value.obj [("b", Value.vint 5)], db2) ∧
      QuickDB.get db2 "json" "a.b" = some (Value.vint 5) ∧
      QuickDB.get db2 "json" "a" = some (Value.obj [("b", Value.vint 5)])) := by
  constructor
  · obtain ⟨r, db2, h1, h2, _⟩ := set_spec db tbl key v hv
    exact ⟨r, db2, h1, h2⟩
  · exact ⟨⟨[("json", [("a", Value.obj [("b", Value.vint 5)])])], 1⟩,
      rfl, rfl, rfl⟩

/-- Witness for C1 at concrete inputs. -/
theorem claim1_set_get_roundtrip_witness :
    (Value.vint 7 ≠ Value.vnull) ∧
    ((∃ r db2, QuickDB.set DB.empty "json" "x.y" (Value.vint 7) =
        Except.ok (r, db2) ∧
      QuickDB.get db2 "json" "x.y" = some (Value.vint 7)) ∧
     (∃ db2, QuickDB.set DB.empty "json" "a.b" (Value.vint 5) =
        Except.ok (Value.obj [("b", Value.vint 5)], db2) ∧
      QuickDB.get db2 "json" "a.b" = some (Value.vint 5) ∧
      QuickDB.get db2 "json" "a" = some (Value.obj [("b", Value.vint 5)]))) :=
  ⟨by decide,
   claim1_set_get_roundtrip DB.empty "json" "x.y" (Value.vint 7) (by decide)⟩

/-- C2: dotted `set` whose root row is currently absent or holds a value
that is not a keyed structure (fails `instanceof Object`) replaces that row
by a fresh object containing only the written path, silently discarding the
prior content; concretely `set("a.b", 5)` when `"a"` holds the number `3`
discards the `3` and leaves `"a"` holding `\x7bb: 5\x7d`. -/
theorem claim2_dotted_set_coerces (db : DB) (tbl key : String) (v : Value)
    (hv : v ≠ Value.vnull) (hd : hasDot key = true)
    (hcur : ∀ w, rowValue db tbl ((keyParts key).headD "") = some w →
      w.isObject = false) :
    (∃ db2, QuickDB.set db tbl key v =
        Except.ok (lodashSet (Value.obj []) (keyParts key).tail v, db2) ∧
      rowValue db2 tbl ((keyParts key).headD "") =
        some (lodashSet (Value.obj []) (keyParts key).tail v)) ∧
    (∃ db2, QuickDB.set ⟨[("json", [("a", Value.vint 3)])], 0⟩ "json" "a.b"
        (Value.vint 5) =
        Except.ok (Value.obj [("b", Value.vint 5)], db2) ∧
      rowValue db2 "json" "a" = some (Value.obj [("b", Value.vint 5)])) := by
  constructor
  · have hco : (match (JSONDriver.getRowByKey db tbl
        ((keyParts key).headD "")).1 with
        | some w => if w.isObject then w else Value.obj []
        | none => Value.obj []) = Value.obj [] := by
      cases hc : (JSONDriver.getRowByKey db tbl ((keyParts key).headD "")).1 with
      | none => rfl
      | some w =>
          have hw := hcur w (by rw [← getRowByKey_fst]; exact hc)
          simp [hw]
    simp only [QuickDB.set, hv, hd, if_true, if_false]
    rw [hco]
    exact ⟨(JSONDriver.setRowByKey db tbl ((keyParts key).headD "")
        (lodashSet (Value.obj []) (keyParts key).tail v)
        (JSONDriver.getRowByKey db tbl ((keyParts key).headD "")).2).2,
      rfl, rowValue_setRowByKey_self _ _ _ _ _⟩
  · exact ⟨⟨[("json", [("a", Value.obj [("b", Value.vint 5)])])], 1⟩,
      rfl, rfl⟩

/-- Witness for C2 at concrete inputs. -/
theorem claim2_dotted_set_coerces_witness :
    ((Value.vint 7 ≠ Value.vnull) ∧ hasDot "a.b" = true) ∧
    ((∃ db2, QuickDB.set DB.empty "json" "a.b" (Value.vint 7) =
        Except.ok (lodashSet (Value.obj []) (keyParts "a.b").tail
          (Value.vint 7), db2) ∧
      rowValue db2 "json" ((keyParts "a.b").headD "") =
        some (lodashSet (Value.obj []) (keyParts "a.b").tail
          (Value.vint 7))) ∧
     (∃ db2, QuickDB.set ⟨[("json", [("a", Value.vint 3)])], 0⟩ "json" "a.b"
        (Value.vint 5) =
        Except.ok (Value.obj [("b", Value.vint 5)], db2) ∧
      rowValue db2 "json" "a" = some (Value.obj [("b", Value.vint 5)]))) :=
  ⟨⟨by decide, by decide⟩,
   claim2_dotted_set_coerces DB.empty "json" "a.b" (Value.vint 7) (by decide)
     (by decide)
     (by
       intro w h
       rw [show rowValue DB.empty "json" ((keyParts "a.b").headD "") = none
         from rfl] at h
       exact Option.noConfusion h)⟩

/-- C3 (documents the code bug): `add`/`sub` on a key holding the string
`"not a number"` do not fail — `parseFloat` returns `NaN` instead of
throwing, so the `try/catch` in `addSubtract` is dead code; the call
resolves with `NaN` and overwrites the stored value with `NaN` (including a
snapshot write), rather than raising the type error and leaving the value
unchanged. -/
theorem claim3_add_unparseable_stores_nan :
    QuickDB.add ⟨[("json", [("k", Value.vstr "not a number")])], 0⟩ "json"
      "k" (JSNum.int 5) =
      Except.ok (Value.vnum JSNum.nan,
        ⟨[("json", [("k", Value.vnum JSNum.nan)])], 1⟩) ∧
    QuickDB.sub ⟨[("json", [("k", Value.vstr "not a number")])], 0⟩ "json"
      "k" (JSNum.int 5) =
      Except.ok (Value.vnum JSNum.nan,
        ⟨[("json", [("k", Value.vnum JSNum.nan)])], 1⟩) := ⟨rfl, rfl⟩

/-- C9 counterexample: on an empty store `add("a.b", 5)` resolves with the
root structure `\x7bb: 5\x7d` (the `set` echo), not with the number 5, so
"storing and returning n" fails for dotted keys. -/
theorem claim9_dotted_add_counterexample :
    QuickDB.add DB.empty "json" "a.b" (JSNum.int 5) =
      Except.ok (Value.obj [("b", Value.vint 5)],
        ⟨[("json", [("a", Value.obj [("b", Value.vint 5)])])], 1⟩) ∧
    Value.obj [("b", Value.vint 5)] ≠ Value.vint 5 :=
  ⟨rfl, by decide⟩

/-- C9 (amended): `add`/`sub` on a never-set key treat the current value as
0 and never raise an arithmetic type error: `add(k, n)` stores `n` (a
subsequent `get` reads `n` back) and `sub(k, n)` stores `-n`; for a flat key
the call also resolves with the stored number (for a dotted key it resolves
with the root row's structure). -/
theorem claim9_absent_add_sub (db : DB) (tbl key : String) (n : Int)
    (habs : QuickDB.get db tbl key = none) :
    (∃ r db2, QuickDB.add db tbl key (JSNum.int n) = Except.ok (r, db2) ∧
      QuickDB.get db2 tbl key = some (Value.vint n) ∧
      (hasDot key = false → r = Value.vint n)) ∧
    (∃ r db2, QuickDB.sub db tbl key (JSNum.int n) = Except.ok (r, db2) ∧
      QuickDB.get db2 tbl key = some (Value.vint (-n)) ∧
      (hasDot key = false → r = Value.vint (-n))) := by
  constructor
  · have h : QuickDB.add db tbl key (JSNum.int n) =
        QuickDB.set db tbl key (Value.vint n) := by
      simp only [QuickDB.add, QuickDB.addSubtract, habs]
      norm_num [JSNum.add, Value.vint, Value.vnum]
    rw [h]
    obtain ⟨r, db2, h1, h2, _, _, h5⟩ :=
      set_spec db tbl key (Value.vint n) (by simp [Value.vint, Value.vnull])
    exact ⟨r, db2, h1, h2, h5⟩
  · have h : QuickDB.sub db tbl key (JSNum.int n) =
        QuickDB.set db tbl key (Value.vint (-n)) := by
      simp only [QuickDB.sub, QuickDB.addSubtract, habs]
      norm_num [JSNum.sub, Value.vint, Value.vnum]
    rw [h]
    obtain ⟨r, db2, h1, h2, _, _, h5⟩ :=
      set_spec db tbl key (Value.vint (-n))
        (by simp [Value.vint, Value.vnull])
    exact ⟨r, db2, h1, h2, h5⟩

/-- Witness for the amended C9 at concrete inputs. -/
theorem claim9_absent_add_sub_witness :
    (QuickDB.get DB.empty "json" "k" = none) ∧
    ((∃ r db2, QuickDB.add DB.empty "json" "k" (JSNum.int 4) =
        Except.ok (r, db2) ∧
      QuickDB.get db2 "json" "k" = some (Value.vint 4) ∧
      (hasDot "k" = false → r = Value.vint 4)) ∧
     (∃ r db2, QuickDB.sub DB.empty "json" "k" (JSNum.int 4) =
        Except.ok (r, db2) ∧
      QuickDB.get db2 "json" "k" = some (Value.vint (-4)) ∧
      (hasDot "k" = false → r = Value.vint (-4)))) :=
  ⟨rfl, claim9_absent_add_sub DB.empty "json" "k" 4 rfl⟩

/-- C5: a dotted `delete` always performs exactly one Table Store set and
hence one snapshot write, and never fails; when the root row exists and the
target leaf does not resolve, the write-back is a no-op on the row's value
(the row is re-stored unchanged). -/
theorem claim5_dotted_delete_one_snapshot (db : DB) (tbl key : String)
    (hd : hasDot key = true) :
    ∃ r db2, QuickDB.delete db tbl key = Except.ok (r, db2) ∧
      db2.snapshots = db.snapshots + 1 ∧
      (∀ w, rowValue db tbl ((keyParts key).headD "") = some w →
        w ≠ Value.vnull →
        lodashGet w (keyParts key).tail = none →
        rowValue db2 tbl ((keyParts key).headD "") = some w) := by
  obtain ⟨db2, h1, h2, h3⟩ := delete_dotted_spec db tbl key hd
  refine ⟨_, db2, h1, h3, ?_⟩
  intro w hw hwn hleaf
  have hget : QuickDB.get db tbl ((keyParts key).headD "") = some w := by
    rw [get_flat db tbl _ (hasDot_head_eq_false key)]
    exact hw
  rw [h2, hget, nullishD_some_of_ne w _ hwn,
    lodashUnset_of_get_none (keyParts key).tail w hleaf]

/-- Witness for C5 at concrete inputs (row `"a"` exists, leaf `"b"` does
not). -/
theorem claim5_dotted_delete_one_snapshot_witness :
    (hasDot "a.b" = true) ∧
    (∃ r db2,
      QuickDB.delete ⟨[("json", [("a", Value.obj [("c", Value.vint 1)])])],
        0⟩ "json" "a.b" = Except.ok (r, db2) ∧
      db2.snapshots = 0 + 1 ∧
      (∀ w, rowValue ⟨[("json", [("a", Value.obj [("c", Value.vint 1)])])],
          0⟩ "json" ((keyParts "a.b").headD "") = some w →
        w ≠ Value.vnull →
        lodashGet w (keyParts "a.b").tail = none →
        rowValue db2 "json" ((keyParts "a.b").headD "") = some w)) :=
  ⟨by decide,
   claim5_dotted_delete_one_snapshot
     ⟨[("json", [("a", Value.obj [("c", Value.vint 1)])])], 0⟩ "json" "a.b"
     (by decide)⟩

/-- C10: a dotted `delete` resolves with the root row's post-write
structure (the row value with the leaf removed), not with a 0-or-1 removal
count as for undotted keys; in particular, on an empty store
`delete("a.b")` creates row `"a"` holding the empty structure and resolves
with it. -/
theorem claim10_dotted_delete_returns_structure (db : DB) (tbl key : String)
    (hd : hasDot key = true) :
    (∃ db2, QuickDB.delete db tbl key =
        Except.ok (lodashUnset (nullishD (QuickDB.get db tbl
          ((keyParts key).headD "")) (Value.obj [])) (keyParts key).tail,
          db2) ∧
      rowValue db2 tbl ((keyParts key).headD "") =
        some (lodashUnset (nullishD (QuickDB.get db tbl
          ((keyParts key).headD "")) (Value.obj [])) (keyParts key).tail)) ∧
    (∃ db2, QuickDB.delete DB.empty "json" "a.b" =
        Except.ok (Value.obj [], db2) ∧
      rowValue db2 "json" "a" = some (Value.obj [])) := by
  constructor
  · obtain ⟨db2, h1, h2, _⟩ := delete_dotted_spec db tbl key hd
    exact ⟨db2, h1, h2⟩
  · exact ⟨⟨[("json", [("a", Value.obj [])])], 1⟩, rfl, rfl⟩

/-- Witness for C10 at a concrete input. -/
theorem claim10_dotted_delete_returns_structure_witness :
    (hasDot "x.y" = true) ∧
    ((∃ db2, QuickDB.delete DB.empty "json" "x.y" =
        Except.ok (lodashUnset (nullishD (QuickDB.get DB.empty "json"
          ((keyParts "x.y").headD "")) (Value.obj []))
          (keyParts "x.y").tail, db2) ∧
      rowValue db2 "json" ((keyParts "x.y").headD "") =
        some (lodashUnset (nullishD (QuickDB.get DB.empty "json"
          ((keyParts "x.y").headD "")) (Value.obj []))
          (keyParts "x.y").tail)) ∧
     (∃ db2, QuickDB.delete DB.empty "json" "a.b" =
        Except.ok (Value.obj [], db2) ∧
      rowValue db2 "json" "a" = some (Value.obj []))) :=
  ⟨by decide,
   claim10_dotted_delete_returns_structure DB.empty "json" "x.y" (by decide)⟩

theorem isNullArg_val_of_ne (v : Value) (hv : v ≠ Value.vnull) :
    QuickDB.isNullArg (QuickDB.PullArg.val v) = false := by
  cases v with
  | prim q =>
      cases q with
      | null => exact absurd rfl hv
      | bool b => rfl
      | num n => rfl
      | str s => rfl
  | arr es ps => rfl
  | obj ps => rfl

theorem getArray_of_arr (db : DB) (tbl key : String) (es : List Value)
    (ps : List (String × Value))
    (hcur : QuickDB.get db tbl key = some (Value.arr es ps)) :
    QuickDB.getArray db tbl key = Except.ok (es, ps) := by
  unfold QuickDB.getArray
  rw [hcur]
  rfl

theorem filter_not_contains_singleton (es : List Value) (v : Value) :
    es.filter (fun x => !([v].contains x)) =
      es.filter (fun x => decide (x ≠ v)) := by
  apply List.filter_congr
  intro x _
  simp [List.contains, List.elem_eq_mem, decide_not]

theorem filter_not_contains (es vs : List Value) :
    es.filter (fun x => !(vs.contains x)) =
      es.filter (fun x => decide (x ∉ vs)) := by
  apply List.filter_congr
  intro x _
  simp [List.contains, List.elem_eq_mem, decide_not]

/-- C4 counterexample: on `[1, 2, 3]`, `pull` with the predicate "equals 2"
resolves with `[1, 3]`: the element satisfying the predicate is removed and
the failing ones are kept, whereas removing "the elements failing the
predicate" would leave `[2]`. -/
theorem claim4_pull_predicate_counterexample :
    QuickDB.pull ⟨[("json", [("arr", Value.arr [Value.vint 1, Value.vint 2,
        Value.vint 3] [])])], 0⟩ "json" "arr"
      (QuickDB.PullArg.fn (fun x => x == Value.vint 2)) =
      Except.ok (Value.arr [Value.vint 1, Value.vint 3] [],
        ⟨[("json", [("arr", Value.arr [Value.vint 1, Value.vint 3] [])])],
          1⟩) ∧
    Value.arr [Value.vint 1, Value.vint 3] [] ≠ Value.arr [Value.vint 2] [] :=
  ⟨rfl, by decide⟩

/-- C4 (amended): for every key holding an array, `pull` with a single
value removes the elements equal to it, with a value set removes the
elements contained in it, and with a predicate removes the elements
**satisfying** it (keeping those that fail it), writing the filtered array
back; `pull("arr", 2)` on `[1, 2, 3]` yields `[1, 3]`. -/
theorem claim4_pull_filters (db : DB) (tbl key : String) (es : List Value)
    (ps : List (String × Value)) (v : Value) (vs : List Value)
    (f : Value → Bool) (hv : v ≠ Value.vnull)
    (hcur : QuickDB.get db tbl key = some (Value.arr es ps)) :
    (∃ r db2, QuickDB.pull db tbl key (QuickDB.PullArg.val v) =
        Except.ok (r, db2) ∧
      QuickDB.get db2 tbl key =
        some (Value.arr (es.filter (fun x => decide (x ≠ v))) [])) ∧
    (∃ r db2, QuickDB.pull db tbl key (QuickDB.PullArg.vals vs) =
        Except.ok (r, db2) ∧
      QuickDB.get db2 tbl key =
        some (Value.arr (es.filter (fun x => decide (x ∉ vs))) [])) ∧
    (∃ r db2, QuickDB.pull db tbl key (QuickDB.PullArg.fn f) =
        Except.ok (r, db2) ∧
      QuickDB.get db2 tbl key =
        some (Value.arr (es.filter (fun x => !(f x))) [])) ∧
    (∃ db2, QuickDB.pull ⟨[("json", [("arr", Value.arr [Value.vint 1,
          Value.vint 2, Value.vint 3] [])])], 0⟩ "json" "arr"
        (QuickDB.PullArg.val (Value.vint 2)) =
        Except.ok (Value.arr [Value.vint 1, Value.vint 3] [], db2)) := by
  have hga := getArray_of_arr db tbl key es ps hcur
  refine ⟨?_, ?_, ?_, ?_⟩
  · have hnull := isNullArg_val_of_ne v hv
    simp only [QuickDB.pull, hnull, Bool.false_eq_true, if_false, hga]
    rw [filter_not_contains_singleton]
    obtain ⟨r, db2, h1, h2, _⟩ := set_spec db tbl key
      (Value.arr (es.filter (fun x => decide (x ≠ v))) [])
      (by simp [Value.vnull])
    exact ⟨r, db2, h1, h2⟩
  · simp only [QuickDB.pull, QuickDB.isNullArg, Bool.false_eq_true,
      if_false, hga]
    rw [filter_not_contains]
    obtain ⟨r, db2, h1, h2, _⟩ := set_spec db tbl key
      (Value.arr (es.filter (fun x => decide (x ∉ vs))) [])
      (by simp [Value.vnull])
    exact ⟨r, db2, h1, h2⟩
  · simp only [QuickDB.pull, QuickDB.isNullArg, Bool.false_eq_true,
      if_false, hga]
    obtain ⟨r, db2, h1, h2, _⟩ := set_spec db tbl key
      (Value.arr (es.filter (fun x => !(f x))) [])
      (by simp [Value.vnull])
    exact ⟨r, db2, h1, h2⟩
  · exact ⟨⟨[("json", [("arr", Value.arr [Value.vint 1, Value.vint 3]
      [])])], 1⟩, rfl⟩

/-- Witness for the amended C4 at concrete inputs. -/
theorem claim4_pull_filters_witness :
    ((Value.vint 2 ≠ Value.vnull) ∧
     QuickDB.get ⟨[("json", [("arr", Value.arr [Value.vint 1, Value.vint 2,
        Value.vint 3] [])])], 0⟩ "json" "arr" =
      some (Value.arr [Value.vint 1, Value.vint 2, Value.vint 3] [])) ∧
    ((∃ r db2, QuickDB.pull ⟨[("json", [("arr", Value.arr [Value.vint 1,
          Value.vint 2, Value.vint 3] [])])], 0⟩ "json" "arr"
        (QuickDB.PullArg.val (Value.vint 2)) = Except.ok (r, db2) ∧
      QuickDB.get db2 "json" "arr" =
        some (Value.arr ([Value.vint 1, Value.vint 2,
          Value.vint 3].filter (fun x => decide (x ≠ Value.vint 2))) [])) ∧
     (∃ r db2, QuickDB.pull ⟨[("json", [("arr", Value.arr [Value.vint 1,
          Value.vint 2, Value.vint 3] [])])], 0⟩ "json" "arr"
        (QuickDB.PullArg.vals [Value.vint 2]) = Except.ok (r, db2) ∧
      QuickDB.get db2 "json" "arr" =
        some (Value.arr ([Value.vint 1, Value.vint 2,
          Value.vint 3].filter (fun x => decide (x ∉ [Value.vint 2]))) [])) ∧
     (∃ r db2, QuickDB.pull ⟨[("json", [("arr", Value.arr [Value.vint 1,
          Value.vint 2, Value.vint 3] [])])], 0⟩ "json" "arr"
        (QuickDB.PullArg.fn (fun x => x == Value.vint 2)) =
        Except.ok (r, db2) ∧
      QuickDB.get db2 "json" "arr" =
        some (Value.arr ([Value.vint 1, Value.vint 2,
          Value.vint 3].filter
            (fun x => !(x == Value.vint 2))) [])) ∧
     (∃ db2, QuickDB.pull ⟨[("json", [("arr", Value.arr [Value.vint 1,
          Value.vint 2, Value.vint 3] [])])], 0⟩ "json" "arr"
        (QuickDB.PullArg.val (Value.vint 2)) =
        Except.ok (Value.arr [Value.vint 1, Value.vint 3] [], db2))) :=
  ⟨⟨by decide, rfl⟩,
   claim4_pull_filters ⟨[("json", [("arr", Value.arr [Value.vint 1,
       Value.vint 2, Value.vint 3] [])])], 0⟩ "json" "arr"
     [Value.vint 1, Value.vint 2, Value.vint 3] [] (Value.vint 2)
     [Value.vint 2] (fun x => x == Value.vint 2) (by decide) rfl⟩

/-- C6: `push` and `pull` on a key whose existing (non-nullish) stored
value is not an array fail with the array type error; the error is raised
inside `getArray` before any driver mutation, so no write occurs and the
in-memory state is untouched (an `error` result carries no new state). -/
theorem claim6_push_pull_type_error (db : DB) (tbl key : String)
    (w v : Value) (arg : QuickDB.PullArg)
    (hcur : QuickDB.get db tbl key = some w)
    (hwn : w ≠ Value.vnull)
    (hwa : ∀ es ps, w ≠ Value.arr es ps)
    (hv : v ≠ Value.vnull)
    (harg : QuickDB.isNullArg arg = false) :
    QuickDB.push db tbl key v =
      Except.error s!"Current value with key: ({key}) is not an array" ∧
    QuickDB.pull db tbl key arg =
      Except.error s!"Current value with key: ({key}) is not an array" := by
  have hga : QuickDB.getArray db tbl key =
      Except.error s!"Current value with key: ({key}) is not an array" := by
    unfold QuickDB.getArray
    rw [hcur, nullishD_some_of_ne w _ hwn]
    cases w with
    | prim q =>
        cases q with
        | null => exact absurd rfl hwn
        | bool b => rfl
        | num n => rfl
        | str s => rfl
    | arr es ps => exact absurd rfl (hwa es ps)
    | obj ps => rfl
  constructor
  · simp only [QuickDB.push, hv, if_false, hga]
  · simp only [QuickDB.pull, harg, Bool.false_eq_true, if_false, hga]

/-- Witness for C6 at concrete inputs (`"k"` holds the number 3). -/
theorem claim6_push_pull_type_error_witness :
    (QuickDB.get ⟨[("json", [("k", Value.vint 3)])], 0⟩ "json" "k" =
      some (Value.vint 3)) ∧
    (QuickDB.push ⟨[("json", [("k", Value.vint 3)])], 0⟩ "json" "k"
        (Value.vint 1) =
      Except.error "Current value with key: (k) is not an array" ∧
     QuickDB.pull ⟨[("json", [("k", Value.vint 3)])], 0⟩ "json" "k"
        (QuickDB.PullArg.val (Value.vint 1)) =
      Except.error "Current value with key: (k) is not an array") :=
  ⟨rfl,
   claim6_push_pull_type_error ⟨[("json", [("k", Value.vint 3)])], 0⟩
     "json" "k" (Value.vint 3) (Value.vint 1)
     (QuickDB.PullArg.val (Value.vint 1)) rfl (by decide)
     (by intro es ps; simp [Value.vint]) (by decide) rfl⟩

/-- C7: at file-backed backend construction, a snapshot file that exists
but fails to `JSON.parse` is fatal (`loadContentSync` throws
`"Database malformed"`, so the constructor fails and the backend does not
come up); a missing file makes `loadContentSync` write the empty snapshot
`"\x7b\x7d"` synchronously and construction succeeds on the unchanged
(empty) store. -/
theorem claim7_load_content_sync (db : DB) :
    JSONDriver.loadContentSync db JSONDriver.SnapshotFile.malformed =
      Except.error "Database malformed" ∧
    JSONDriver.loadContentSync db JSONDriver.SnapshotFile.absent =
      Except.ok (db, some "\x7b\x7d") := ⟨rfl, rfl⟩

theorem lookupA_map_keys {α β : Type} (l : List (String × α))
    (f : String → β) (k : String) :
    lookupA (l.map (fun kv => (kv.1, f kv.1))) k =
      (lookupA l k).map (fun _ => f k) := by
  induction l with
  | nil => simp [lookupA]
  | cons kv rest ih =>
      by_cases hk : kv.1 = k
      · simp [lookupA, hk]
      · simp [lookupA, hk, ih]

theorem deleteAllRows_lookup (db : DB) (t : String) :
    lookupA (JSONDriver.deleteAllRows db t).2.tables t = some [] := by
  unfold JSONDriver.deleteAllRows MemoryDriver.deleteAllRows
    JSONDriver.snapshotWrite
  simp [lookupA_putA_self]

/-- C8: `deleteAll` on table `T` empties it but keeps it registered: the
export still lists `T` with no rows, a subsequent `set(T, K, v)` succeeds,
`get(T, K)` returns `v`, and `T` is still present in the export after that
write. -/
theorem claim8_deleteAll_preserves_registration (db : DB) (T K : String)
    (v : Value) (hv : v ≠ Value.vnull) :
    lookupA (JSONDriver.exportDB (QuickDB.deleteAll db T).2) T = some [] ∧
    (∃ r db2, QuickDB.set (QuickDB.deleteAll db T).2 T K v =
        Except.ok (r, db2) ∧
      QuickDB.get db2 T K = some v ∧
      (lookupA (JSONDriver.exportDB db2) T).isSome) := by
  have h0 : lookupA (QuickDB.deleteAll db T).2.tables T = some [] := by
    simp only [QuickDB.deleteAll]
    exact deleteAllRows_lookup db T
  constructor
  · unfold JSONDriver.exportDB
    rw [lookupA_map_keys, h0]
    simp [MemoryDriver.getAllRows, tableRows, h0]
  · obtain ⟨r, db2, h1, h2, _, h4, _⟩ :=
      set_spec (QuickDB.deleteAll db T).2 T K v hv
    refine ⟨r, db2, h1, h2, ?_⟩
    unfold JSONDriver.exportDB
    rw [lookupA_map_keys]
    simpa using h4

/-- Witness for C8 at concrete inputs. -/
theorem claim8_deleteAll_preserves_registration_witness :
    (Value.vint 2 ≠ Value.vnull) ∧
    (lookupA (JSONDriver.exportDB
        (QuickDB.deleteAll ⟨[("json", [("x", Value.vint 1)])], 0⟩
          "json").2) "json" = some [] ∧
     (∃ r db2, QuickDB.set
        (QuickDB.deleteAll ⟨[("json", [("x", Value.vint 1)])], 0⟩
          "json").2 "json" "k" (Value.vint 2) = Except.ok (r, db2) ∧
      QuickDB.get db2 "json" "k" = some (Value.vint 2) ∧
      (lookupA (JSONDriver.exportDB db2) "json").isSome)) :=
  ⟨by decide,
   claim8_deleteAll_preserves_registration
     ⟨[("json", [("x", Value.vint 1)])], 0⟩ "json" "k" (Value.vint 2)
     (by decide)⟩
